import Mathlib

/-!
Verification of `rich_header.h`, a header-only C library that locates and
deciphers the undocumented "Rich header" of PE files.

The embedding models a byte buffer as a `List Nat` (each element one byte).
All machine arithmetic is on `Nat` with explicit truncation where the C code
truncates.  Fallible operations (reads that the C code would perform out of
bounds) are modelled with `Option`: a result of `none` marks an execution in
which the C code would access memory outside the buffer.
-/

namespace RichHeader

/-- Empty string sentinel returned by the classifier for unknown product IDs. -/
def emptyStr : String := ""

/-- Little-endian 32-bit word `"DanS"` (`'D','a','n','S'`), the masked prologue
signature tested by the backward scan in `rich_header_from_data`. -/
def DANS : Nat := 0x536e6144

/-- Little-endian 32-bit word `"Rich"` (`'R','i','c','h'`), the plaintext tail
signature scanned for by `rich_header_from_data`. -/
def RICHW : Nat := 0x68636952

/-- Byte of a buffer at offset `i`, defaulting to `0` out of bounds.  Used only
at offsets that are separately proved (or checked) to be in bounds. -/
def byteAt (data : List Nat) (i : Nat) : Nat := (data[i]?).getD 0

/-- Little-endian 32-bit load at byte offset `i`; `none` when the 4-byte window
does not fit in the buffer (the C code reading there would be out of bounds). -/
def read32 (data : List Nat) (i : Nat) : Option Nat :=
  if i + 4 ≤ data.length then
    some (byteAt data i + 256 * byteAt data (i + 1) +
          65536 * byteAt data (i + 2) + 16777216 * byteAt data (i + 3))
  else none

/-- The 32-bit value loaded at offset `i` (junk `0` out of bounds; every use in
the scans below is at an in-bounds offset). -/
def word32 (data : List Nat) (i : Nat) : Nat := (read32 data i).getD 0

/-- The C test `memcmp((void*)p, rich_header_signature, 4) == 0` of the source: the four
bytes at offset `i` are exactly `'R','i','c','h'`. -/
def matchRich (data : List Nat) (i : Nat) : Bool :=
  data[i]? == some 0x52 && data[i + 1]? == some 0x69 &&
  data[i + 2]? == some 0x63 && data[i + 3]? == some 0x68

/-- Forward scan loop of `rich_header_from_data`: starting at byte offset `i`
(the C code starts at 64), while the 4-byte signature window is strictly inside
the buffer (`(char*)p + 4 < (char*)data + data_size`), test for `"Rich"` and
otherwise advance by one `uint32_t` (4 bytes, `p += 1`).  `fuel` only bounds
the recursion; `data.length` steps always suffice. -/
def findRichLoop (data : List Nat) : Nat → Nat → Option Nat
  | 0, _ => none
  | fuel + 1, i =>
    if i + 4 < data.length then
      if matchRich data i then some i else findRichLoop data fuel (i + 4)
    else none

/-- Backward scan loop of `rich_header_from_data`: starting at word `j` (the C
code starts at the found `"Rich"` offset itself) walk 4-byte words downward,
never past offset 0, and return the first offset whose word XOR `key` equals
the masked `"DanS"` signature.  `fuel` only bounds the recursion; `j / 4 + 1`
steps always suffice. -/
def findDansLoop (data : List Nat) (key : Nat) : Nat → Nat → Option Nat
  | 0, _ => none
  | fuel + 1, j =>
    if word32 data j ^^^ key = DANS then some j
    else if j = 0 then none
    else findDansLoop data key fuel (j - 4)

/-- Embedding of `rich_header_from_data(data, data_size, rhdr)` of the C source.

`rhdr` models the contents of the caller's `IMAGE_RICH_HEADER*` slot (an offset
into the buffer, or `none` for a value not pointing into the buffer); the
function returns the final contents of that slot together with the C `long`
result: the rich-header size on success, `-1` when the `"Rich"` signature is
not found, `-2` when the masked `"DanS"` signature is not found.  The outer
`Option` is `none` exactly when the C code reads out of bounds (this happens
only when the 4 key bytes following a matched `"Rich"` signature extend past
the end of the buffer). -/
def rich_header_from_data (data : List Nat) (rhdr : Option Nat) :
    Option (Int × Option Nat) :=
  match findRichLoop data data.length 64 with
  | none => some (-1, rhdr)
  | some off =>
    match read32 data (off + 4) with
    | none => none
    | some key =>
      match findDansLoop data key (off / 4 + 1) off with
      | some j => some (((off - j : Nat) : Int), some off)
      | none => some (-2, some off)

/-- Embedding of `rich_header_unmask(rhdr, masked_rhdr_size, masked_rhdr)` of the C source:
read `size / 4` consecutive 32-bit words starting `size` bytes before the rich
header at `rhdr_off` and XOR each with the key stored at `rhdr_off + 4`.  The
output buffer is modelled as the returned word list.  When `size < 4` the C
loop performs no memory access at all; otherwise `none` marks a span for which
the C code would read out of bounds. -/
def rich_header_unmask (data : List Nat) (rhdr_off size : Nat) :
    Option (List Nat) :=
  if size < 4 then some []
  else if size ≤ rhdr_off ∧ rhdr_off + 8 ≤ data.length then
    some ((List.range (size / 4)).map fun i =>
      word32 data (rhdr_off - size + 4 * i) ^^^ word32 data (rhdr_off + 4))
  else none

/-- The C macro `rich_header_products_len`, computed in 64-bit `size_t`
arithmetic: `((size) - 16) / 8` with wrap-around on underflow. -/
def rich_header_products_len (size : Nat) : Nat :=
  ((size + 2 ^ 64 - 16) % 2 ^ 64) / 8

/-- The C struct `IMAGE_MASKED_RICH_HEADER_PRODUCT`: one product entry of the
unmasked header (`uint16_t BuildNumber; uint16_t ProductID; uint32_t
ObjectCount`). -/
structure IMAGE_MASKED_RICH_HEADER_PRODUCT where
  BuildNumber : Nat
  ProductID : Nat
  ObjectCount : Nat
deriving DecidableEq, Inhabited

/-- Reading `Products[i]` for `i < n` out of the unmasked word list, following
the layout of `IMAGE_MASKED_RICH_HEADER` (one masked signature word, three
padding words, then 8-byte product entries whose first word packs
`BuildNumber` in the low 16 bits and `ProductID` in the high 16 bits and whose
second word is `ObjectCount`), as done by the loop of `example.c`. -/
def productsOfWords (ws : List Nat) (n : Nat) :
    List IMAGE_MASKED_RICH_HEADER_PRODUCT :=
  (List.range n).map fun i =>
    { BuildNumber := (ws.getD (4 + 2 * i) 0) % 65536
      ProductID := (ws.getD (4 + 2 * i) 0) / 65536 % 65536
      ObjectCount := ws.getD (4 + 2 * i + 1) 0 }

/-- The 4 bytes of a 32-bit word in little-endian order, as laid out in the
file buffer. -/
def le32 (w : Nat) : List Nat :=
  [w % 256, w / 256 % 256, w / 65536 % 256, w / 16777216 % 256]

/-- Byte serialization of a list of 32-bit words. -/
def wordsBytes (ws : List Nat) : List Nat := (ws.map le32).flatten

/-- The two on-disk 32-bit words of one product entry (word 0: `BuildNumber`
low, `ProductID` high; word 1: `ObjectCount`). -/
def productWords (ps : List IMAGE_MASKED_RICH_HEADER_PRODUCT) : List Nat :=
  (ps.map fun p => [p.BuildNumber + 65536 * p.ProductID, p.ObjectCount]).flatten

/-- A buffer assembled exactly as in the spec's round-trip property:
`[padding][DanS ^ key][3 zero words ^ key][product words ^ key][Rich][key]`. -/
def assembleRich (pad : List Nat) (key : Nat)
    (ps : List IMAGE_MASKED_RICH_HEADER_PRODUCT) : List Nat :=
  pad ++ wordsBytes ([DANS ^^^ key, 0 ^^^ key, 0 ^^^ key, 0 ^^^ key] ++
    (productWords ps).map (fun w => w ^^^ key) ++ [RICHW, key])

/-! ### Byte-level helper lemmas -/

theorem getElem?_append_add (A l : List Nat) (t : Nat) :
    (A ++ l)[A.length + t]? = l[t]? := by
  rw [List.getElem?_append_right (Nat.le_add_right _ _), Nat.add_sub_cancel_left]

theorem byteAt_append_add (A l : List Nat) (t : Nat) :
    byteAt (A ++ l) (A.length + t) = byteAt l t := by
  unfold byteAt; rw [getElem?_append_add]

theorem getD_append_add (A l : List Nat) (t d : Nat) :
    (A ++ l).getD (A.length + t) d = l.getD t d := by
  simp only [List.getD_eq_getElem?_getD, getElem?_append_add]

theorem length_le32 (w : Nat) : (le32 w).length = 4 := rfl

theorem wordsBytes_cons (w : Nat) (ws : List Nat) :
    wordsBytes (w :: ws) = le32 w ++ wordsBytes ws := by
  simp [wordsBytes]

theorem length_wordsBytes (ws : List Nat) :
    (wordsBytes ws).length = 4 * ws.length := by
  induction ws with
  | nil => rfl
  | cons w tl ih => rw [wordsBytes_cons]; simp [length_le32, ih]; omega

theorem read32_le32_append (A C : List Nat) (w : Nat) (hw : w < 2 ^ 32) :
    read32 (A ++ (le32 w ++ C)) A.length = some w := by
  have h0 := byteAt_append_add A (le32 w ++ C) 0
  have h1 := byteAt_append_add A (le32 w ++ C) 1
  have h2 := byteAt_append_add A (le32 w ++ C) 2
  have h3 := byteAt_append_add A (le32 w ++ C) 3
  rw [Nat.add_zero] at h0
  unfold read32
  rw [if_pos (by simp [le32])]
  rw [h0, h1, h2, h3]
  have e0 : byteAt (le32 w ++ C) 0 = w % 256 := by simp [le32, byteAt]
  have e1 : byteAt (le32 w ++ C) 1 = w / 256 % 256 := by simp [le32, byteAt]
  have e2 : byteAt (le32 w ++ C) 2 = w / 65536 % 256 := by simp [le32, byteAt]
  have e3 : byteAt (le32 w ++ C) 3 = w / 16777216 % 256 := by simp [le32, byteAt]
  rw [e0, e1, e2, e3]
  congr 1
  omega

theorem read32_wordsBytes (A : List Nat) (ws : List Nat) (t : Nat)
    (ht : t < ws.length) (hws : ∀ w ∈ ws, w < 2 ^ 32) :
    read32 (A ++ wordsBytes ws) (A.length + 4 * t) = some (ws.getD t 0) := by
  induction t generalizing A ws with
  | zero =>
    cases ws with
    | nil => simp at ht
    | cons w tl =>
      rw [wordsBytes_cons, Nat.mul_zero, Nat.add_zero]
      simpa using read32_le32_append A (wordsBytes tl) w
        (hws w (List.mem_cons_self w tl))
  | succ t ih =>
    cases ws with
    | nil => simp at ht
    | cons w tl =>
      rw [wordsBytes_cons, ← List.append_assoc]
      have hlen : (A ++ le32 w).length = A.length + 4 := by
        simp [length_le32]
      have e : A.length + 4 * (t + 1) = (A ++ le32 w).length + 4 * t := by
        rw [hlen]; omega
      rw [e]
      have := ih (A ++ le32 w) tl (by simpa using ht)
        (fun x hx => hws x (List.mem_cons_of_mem w hx))
      simpa using this

theorem word32_wordsBytes (A : List Nat) (ws : List Nat) (t : Nat)
    (ht : t < ws.length) (hws : ∀ w ∈ ws, w < 2 ^ 32) :
    word32 (A ++ wordsBytes ws) (A.length + 4 * t) = ws.getD t 0 := by
  unfold word32; rw [read32_wordsBytes A ws t ht hws]; rfl

theorem matchRich_le32_append (A C : List Nat) :
    matchRich (A ++ (le32 RICHW ++ C)) A.length = true := by
  have h0 := getElem?_append_add A (le32 RICHW ++ C) 0
  have h1 := getElem?_append_add A (le32 RICHW ++ C) 1
  have h2 := getElem?_append_add A (le32 RICHW ++ C) 2
  have h3 := getElem?_append_add A (le32 RICHW ++ C) 3
  rw [Nat.add_zero] at h0
  unfold matchRich
  rw [h0, h1, h2, h3]
  simp [le32, RICHW]

theorem matchRich_wordsBytes (A : List Nat) (ws : List Nat) (t : Nat)
    (ht : t < ws.length) (hR : ws.getD t 0 = RICHW) :
    matchRich (A ++ wordsBytes ws) (A.length + 4 * t) = true := by
  induction t generalizing A ws with
  | zero =>
    cases ws with
    | nil => simp at ht
    | cons w tl =>
      have hw : w = RICHW := by simpa using hR
      subst hw
      rw [wordsBytes_cons, Nat.mul_zero, Nat.add_zero]
      exact matchRich_le32_append A (wordsBytes tl)
  | succ t ih =>
    cases ws with
    | nil => simp at ht
    | cons w tl =>
      rw [wordsBytes_cons, ← List.append_assoc]
      have hlen : (A ++ le32 w).length = A.length + 4 := by
        simp [length_le32]
      have e : A.length + 4 * (t + 1) = (A ++ le32 w).length + 4 * t := by
        rw [hlen]; omega
      rw [e]
      exact ih (A ++ le32 w) tl (by simpa using ht) (by simpa using hR)

theorem xor_cancel_xor (a k : Nat) : a ^^^ k ^^^ k = a := by
  rw [Nat.xor_assoc, Nat.xor_self, Nat.xor_zero]

theorem read32_eq_word32 (data : List Nat) (i : Nat) (h : i + 4 ≤ data.length) :
    read32 data i = some (word32 data i) := by
  unfold word32 read32
  rw [if_pos h]
  rfl

/-! ### Characterization of the forward scan loop -/

theorem findRichLoop_some (data : List Nat) :
    ∀ (fuel i m : Nat), findRichLoop data fuel i = some m →
      ∃ k, m = i + 4 * k ∧ matchRich data m = true ∧ m + 4 < data.length ∧
        ∀ k' < k, matchRich data (i + 4 * k') = false := by
  intro fuel
  induction fuel with
  | zero => intro i m h; simp [findRichLoop] at h
  | succ f ih =>
    intro i m h
    unfold findRichLoop at h
    split at h
    · rename_i hwin
      split at h
      · rename_i hm
        injection h with h
        subst h
        exact ⟨0, by omega, hm, hwin, by omega⟩
      · rename_i hm
        obtain ⟨k, hk, hmm, hw, hno⟩ := ih (i + 4) m h
        refine ⟨k + 1, by omega, hmm, hw, ?_⟩
        intro k' hk'
        cases k' with
        | zero =>
          simpa using Bool.not_eq_true _ |>.mp hm
        | succ k' =>
          have := hno k' (by omega)
          rw [show i + 4 * (k' + 1) = i + 4 + 4 * k' by omega]
          exact this
    · exact absurd h (by simp)

theorem findRichLoop_reaches (data : List Nat) :
    ∀ (k fuel i m : Nat), k < fuel → m = i + 4 * k →
      matchRich data m = true → m + 4 < data.length →
      (∀ k' < k, matchRich data (i + 4 * k') = false) →
      findRichLoop data fuel i = some m := by
  intro k
  induction k with
  | zero =>
    intro fuel i m hf hm hmatch hwin _
    cases fuel with
    | zero => omega
    | succ f =>
      have hi : m = i := by omega
      subst hi
      unfold findRichLoop
      rw [if_pos hwin, if_pos hmatch]
  | succ k ih =>
    intro fuel i m hf hm hmatch hwin hno
    cases fuel with
    | zero => omega
    | succ f =>
      have h0 : matchRich data i = false := by
        have := hno 0 (by omega)
        simpa using this
      unfold findRichLoop
      rw [if_pos (by omega), h0]
      simp only [Bool.false_eq_true, if_false]
      exact ih f (i + 4) m (by omega) (by omega) hmatch hwin
        (fun k' hk' => by
          have := hno (k' + 1) (by omega)
          rw [show i + 4 + 4 * k' = i + 4 * (k' + 1) by omega]
          exact this)

/-! ### Characterization of the backward scan loop -/

theorem findDansLoop_some (data : List Nat) (key : Nat) :
    ∀ (fuel j₀ j : Nat), 4 ∣ j₀ → findDansLoop data key fuel j₀ = some j →
      4 ∣ j ∧ j ≤ j₀ ∧ word32 data j ^^^ key = DANS ∧
        ∀ t, 4 * t < j₀ - j → word32 data (j₀ - 4 * t) ^^^ key ≠ DANS := by
  intro fuel
  induction fuel with
  | zero => intro j₀ j _ h; simp [findDansLoop] at h
  | succ f ih =>
    intro j₀ j h4 h
    unfold findDansLoop at h
    split at h
    · rename_i hmatch
      injection h with h
      subst h
      exact ⟨h4, Nat.le_refl _, hmatch, by omega⟩
    · rename_i hmatch
      split at h
      · exact absurd h (by simp)
      · rename_i hz
        have h4' : 4 ∣ (j₀ - 4) := by omega
        obtain ⟨hj4, hle, hm, hno⟩ := ih (j₀ - 4) j h4' h
        refine ⟨hj4, by omega, hm, ?_⟩
        intro t ht
        cases t with
        | zero => simpa using hmatch
        | succ t =>
          rw [show j₀ - 4 * (t + 1) = j₀ - 4 - 4 * t by omega]
          exact hno t (by omega)

theorem findDansLoop_none (data : List Nat) (key : Nat) :
    ∀ (fuel j₀ : Nat), 4 ∣ j₀ → j₀ / 4 < fuel →
      findDansLoop data key fuel j₀ = none →
      ∀ t, 4 * t ≤ j₀ → word32 data (j₀ - 4 * t) ^^^ key ≠ DANS := by
  intro fuel
  induction fuel with
  | zero => intro j₀ _ hf; omega
  | succ f ih =>
    intro j₀ h4 hf h t ht
    unfold findDansLoop at h
    split at h
    · exact absurd h (by simp)
    · rename_i hmatch
      split at h
      · rename_i hz
        subst hz
        have : t = 0 := by omega
        subst this
        simpa using hmatch
      · rename_i hz
        cases t with
        | zero => simpa using hmatch
        | succ t =>
          rw [show j₀ - 4 * (t + 1) = j₀ - 4 - 4 * t by omega]
          exact ih (j₀ - 4) (by omega) (by omega) h t (by omega)

theorem findDansLoop_reaches (data : List Nat) (key : Nat) :
    ∀ (fuel j₀ target : Nat), 4 ∣ j₀ → 4 ∣ target → target ≤ j₀ →
      (j₀ - target) / 4 < fuel →
      word32 data target ^^^ key = DANS →
      (∀ j', target < j' → j' ≤ j₀ → 4 ∣ j' → word32 data j' ^^^ key ≠ DANS) →
      findDansLoop data key fuel j₀ = some target := by
  intro fuel
  induction fuel with
  | zero => intro j₀ target _ _ _ hf; omega
  | succ f ih =>
    intro j₀ target h4 h4t hle hf hmatch hno
    unfold findDansLoop
    by_cases hj : j₀ = target
    · subst hj
      rw [if_pos hmatch]
    · have hlt : target < j₀ := Nat.lt_of_le_of_ne hle (fun e => hj e.symm)
      rw [if_neg (hno j₀ hlt (Nat.le_refl _) h4)]
      rw [if_neg (by omega : ¬ j₀ = 0)]
      exact ih (j₀ - 4) target (by omega) h4t (by omega) (by omega) hmatch
        (fun j' h1 h2 h3 => hno j' h1 (by omega) h3)

/-! ### Characterization of `rich_header_from_data` on each kind of result -/

theorem locate_success_spec (data : List Nat) (r₀ : Option Nat) (s off : Nat)
    (h : rich_header_from_data data r₀ = some ((s : Int), some off)) :
    4 ∣ off ∧ 64 ≤ off ∧ off + 4 < data.length ∧ matchRich data off = true ∧
      s ≤ off ∧ 4 ∣ s ∧
      word32 data (off - s) ^^^ word32 data (off + 4) = DANS ∧
      ∀ t, 4 * t < s → word32 data (off - 4 * t) ^^^ word32 data (off + 4) ≠ DANS := by
  unfold rich_header_from_data at h
  split at h
  · simp only [Option.some.injEq, Prod.mk.injEq] at h
    omega
  · rename_i off' heq1
    split at h
    · exact absurd h (by simp)
    · rename_i key heq2
      split at h
      · rename_i j heq3
        simp only [Option.some.injEq, Prod.mk.injEq] at h
        obtain ⟨h1, h2⟩ := h
        subst h2
        have hs : off' - j = s := by omega
        obtain ⟨k, hk, hmatch, hwin, _⟩ := findRichLoop_some data _ _ _ heq1
        have h4off : 4 ∣ off' := by omega
        have hkey : word32 data (off' + 4) = key := by
          unfold word32; rw [heq2]; rfl
        obtain ⟨h4j, hjle, hjm, hno⟩ :=
          findDansLoop_some data key _ _ _ h4off heq3
        have hjs : off' - s = j := by omega
        rw [hkey, hjs]
        exact ⟨h4off, by omega, hwin, hmatch, by omega, by omega, hjm,
          fun t ht => hno t (by omega)⟩
      · simp only [Option.some.injEq, Prod.mk.injEq] at h
        omega

theorem locate_minus2_spec (data : List Nat) (r₀ r : Option Nat)
    (h : rich_header_from_data data r₀ = some (-2, r)) :
    ∃ off, r = some off ∧ matchRich data off = true ∧ 4 ∣ off ∧ 64 ≤ off ∧
      off + 4 < data.length ∧
      ∀ t, 4 * t ≤ off → word32 data (off - 4 * t) ^^^ word32 data (off + 4) ≠ DANS := by
  unfold rich_header_from_data at h
  split at h
  · simp only [Option.some.injEq, Prod.mk.injEq] at h
    omega
  · rename_i off' heq1
    split at h
    · exact absurd h (by simp)
    · rename_i key heq2
      split at h
      · rename_i j heq3
        simp only [Option.some.injEq, Prod.mk.injEq] at h
        omega
      · rename_i heq3
        simp only [Option.some.injEq, Prod.mk.injEq] at h
        obtain ⟨k, hk, hmatch, hwin, _⟩ := findRichLoop_some data _ _ _ heq1
        have h4off : 4 ∣ off' := by omega
        have hkey : word32 data (off' + 4) = key := by
          unfold word32; rw [heq2]; rfl
        refine ⟨off', h.2.symm, hmatch, h4off, by omega, hwin, ?_⟩
        rw [hkey]
        exact findDansLoop_none data key _ _ h4off (by omega) heq3

theorem locate_minus1_spec (data : List Nat) (r₀ r : Option Nat)
    (h : rich_header_from_data data r₀ = some (-1, r)) :
    r = r₀ ∧ findRichLoop data data.length 64 = none := by
  unfold rich_header_from_data at h
  split at h
  · rename_i heq
    simp only [Option.some.injEq, Prod.mk.injEq] at h
    exact ⟨h.2.symm, heq⟩
  · rename_i off' heq1
    split at h
    · exact absurd h (by simp)
    · split at h
      · simp only [Option.some.injEq, Prod.mk.injEq] at h
        omega
      · simp only [Option.some.injEq, Prod.mk.injEq] at h
        omega

/-! ### Concrete buffers used as test vectors -/

/-- Sixty-four zero bytes standing for the unexamined DOS-stub region. -/
def pad64 : List Nat := List.replicate 64 0

/-- A buffer whose masked `"DanS"` word sits immediately before the `"Rich"`
tail: `[64 pad bytes][DanS ^ key][Rich][key]` with `key = 0x12345678`. -/
def shortDansBuf : List Nat :=
  pad64 ++ wordsBytes [DANS ^^^ 0x12345678, RICHW, 0x12345678]

/-- A buffer with a `"Rich"` marker at offset 64, key `0`, and no masked
`"DanS"` word anywhere before it. -/
def noDansBuf : List Nat := pad64 ++ wordsBytes [RICHW, 0]

/-- Like `noDansBuf` but with a plaintext `"DanS"` word at offset 0 (inside
the DOS-stub region). -/
def lowBytesB : List Nat :=
  wordsBytes [DANS] ++ List.replicate 60 0 ++ wordsBytes [RICHW, 0]

/-- A complete zero-product rich header with key `1` whose 4 key bytes are the
final 4 bytes of the buffer (marker at offset 80, buffer length 88). -/
def edgeBuf : List Nat := pad64 ++ wordsBytes [DANS ^^^ 1, 1, 1, 1, RICHW, 1]

/-- The buffer `edgeBuf` truncated by one byte: the key no longer fits in the buffer. -/
def edgeBufShort : List Nat := edgeBuf.take 87

/-- A buffer whose only `"Rich"` marker is at the unaligned offset 66. -/
def unalignedBuf : List Nat := List.replicate 66 0 ++ wordsBytes [RICHW, 0]

/-! ### C10 -/

/-- C10: for every buffer of length at most 68 (in particular all buffers
shorter than the 64-byte DOS-stub minimum), `rich_header_from_data` returns
`-1` (NotFound) with the caller's `rhdr` slot untouched.  The result is the
same for all such buffers regardless of contents — no byte is inspected —
and the out-of-bounds marker `none` never arises. -/
theorem c10_small_buffer_not_found (data : List Nat) (r₀ : Option Nat)
    (h : data.length ≤ 68) :
    rich_header_from_data data r₀ = some (-1, r₀) := by
  have hloop : ∀ fuel, findRichLoop data fuel 64 = none := by
    intro fuel
    cases fuel with
    | zero => rfl
    | succ f =>
      unfold findRichLoop
      rw [if_neg (by omega)]
  unfold rich_header_from_data
  rw [hloop data.length]

/-- Witness for C10 at a concrete 68-byte buffer of nonzero bytes. -/
theorem c10_witness :
    (List.replicate 68 7 : List Nat).length ≤ 68 ∧
      rich_header_from_data (List.replicate 68 7) (some 3) = some (-1, some 3) :=
  ⟨by decide, c10_small_buffer_not_found _ _ (by decide)⟩

/-! ### C1 -/

/-- C1 counterexample: on `shortDansBuf` the masked `"DanS"` test succeeds one
word below the marker, and `rich_header_from_data` returns the length 4 as a
success — the code never validates the computed length against the claimed
`length ≥ 16 ∧ length = 16 + 8k` invariant. -/
theorem c1_counterexample :
    rich_header_from_data shortDansBuf none = some (4, some 68) ∧
      ¬ (16 ≤ (4 : Int)) := by
  constructor
  · decide
  · decide

/-- C1 amended: a successful (nonnegative) result of `rich_header_from_data`
is always a multiple of 4 — both scan offsets are word-aligned — but no lower
bound and no `16 + 8k` shape is enforced; lengths `0`, `4`, `8`, `12` or
`16 + 4 + 8k` can be returned as successes. -/
theorem c1_success_multiple_of_four (data : List Nat) (r₀ r : Option Nat)
    (res : Int) (h : rich_header_from_data data r₀ = some (res, r))
    (hres : 0 ≤ res) : (4 : Int) ∣ res := by
  unfold rich_header_from_data at h
  split at h
  · simp only [Option.some.injEq, Prod.mk.injEq] at h
    omega
  · rename_i off' heq1
    split at h
    · exact absurd h (by simp)
    · rename_i key heq2
      split at h
      · rename_i j heq3
        simp only [Option.some.injEq, Prod.mk.injEq] at h
        obtain ⟨k, hk, _, _, _⟩ := findRichLoop_some data _ _ _ heq1
        have h4off : 4 ∣ off' := by omega
        obtain ⟨h4j, hjle, _, _⟩ :=
          findDansLoop_some data key _ _ _ h4off heq3
        omega
      · simp only [Option.some.injEq, Prod.mk.injEq] at h
        omega

/-- Witness for C1 at the concrete buffer `shortDansBuf`. -/
theorem c1_witness :
    rich_header_from_data shortDansBuf none = some (4, some 68) ∧
      (4 : Int) ∣ 4 :=
  ⟨by decide,
   c1_success_multiple_of_four shortDansBuf none (some 68) 4 (by decide)
     (by decide)⟩

/-! ### C3 -/

/-- C3 counterexample: on `noDansBuf` the call fails with `-2`
(LengthUnrecoverable), yet the caller's `rhdr` slot — initially `none` — has
been overwritten with the found `"Rich"` marker offset 64: partial state does
escape this failed call. -/
theorem c3_counterexample :
    rich_header_from_data noDansBuf none = some (-2, some 64) ∧
      (some 64 : Option Nat) ≠ (none : Option Nat) := by
  constructor
  · decide
  · decide

/-- C3 amended: on a `-1` (NotFound) failure the out-parameter is returned
unchanged, but on a `-2` (LengthUnrecoverable) failure it has already been
overwritten with the offset of the found `"Rich"` marker. -/
theorem c3_rhdr_on_failure :
    (∀ (data : List Nat) (r₀ r : Option Nat),
        rich_header_from_data data r₀ = some (-1, r) → r = r₀) ∧
    (∀ (data : List Nat) (r₀ r : Option Nat),
        rich_header_from_data data r₀ = some (-2, r) →
          ∃ off, r = some off ∧ matchRich data off = true) := by
  constructor
  · intro data r₀ r h
    exact (locate_minus1_spec data r₀ r h).1
  · intro data r₀ r h
    obtain ⟨off, h1, h2, _⟩ := locate_minus2_spec data r₀ r h
    exact ⟨off, h1, h2⟩

/-- Witness for C3 on the empty buffer with a nontrivial initial slot. -/
theorem c3_witness :
    rich_header_from_data ([] : List Nat) (some 5) = some (-1, some 5) ∧
      (some 5 : Option Nat) = some 5 :=
  ⟨by decide, c3_rhdr_on_failure.1 [] (some 5) (some 5) (by decide)⟩

/-! ### C4 -/

/-- C4: on `edgeBuf` the `"Rich"` marker whose 4 key bytes are the buffer's
final 4 bytes is found (result `16`, marker at 80); on the one-byte-shorter
`edgeBufShort` the claim demands NotFound (`-1`), but the scan still matches
the marker at 80 (`80 + 4 < 87`) and then reads the 4-byte key at offsets
84..88 — one byte past the end of the buffer, an out-of-bounds read modelled
by `none`. -/
theorem c4_edge_behaviour :
    rich_header_from_data edgeBuf none = some (16, some 80) ∧
      rich_header_from_data edgeBufShort none = none := by
  constructor
  · decide
  · decide

/-! ### C5 -/

/-- C5: after the `"Rich"` marker is found at `off` with key at `off + 4`, a
successful result `s` identifies `off - s` as the word position closest to
`off` (scanning backward in 4-byte steps) whose value XOR key equals
`"DanS"`: every strictly closer scanned position fails the test — in
particular positions whose word decodes to zero or anything other than
`"DanS"` never terminate the scan.  And when the call fails with `-2`
(LengthUnrecoverable), no scanned position from the marker down to offset 0
satisfies the test. -/
theorem c5_backward_scan_semantics :
    (∀ (data : List Nat) (r₀ : Option Nat) (s off : Nat),
        rich_header_from_data data r₀ = some ((s : Int), some off) →
          word32 data (off - s) ^^^ word32 data (off + 4) = DANS ∧
          ∀ t, 4 * t < s →
            word32 data (off - 4 * t) ^^^ word32 data (off + 4) ≠ DANS) ∧
    (∀ (data : List Nat) (r₀ r : Option Nat),
        rich_header_from_data data r₀ = some (-2, r) →
          ∃ off, r = some off ∧
            ∀ t, 4 * t ≤ off →
              word32 data (off - 4 * t) ^^^ word32 data (off + 4) ≠ DANS) := by
  constructor
  · intro data r₀ s off h
    obtain ⟨_, _, _, _, _, _, hm, hno⟩ := locate_success_spec data r₀ s off h
    exact ⟨hm, hno⟩
  · intro data r₀ r h
    obtain ⟨off, h1, _, _, _, _, hno⟩ := locate_minus2_spec data r₀ r h
    exact ⟨off, h1, hno⟩

/-- Witness for C5 on `edgeBuf` (result 16, marker 80): the found start is
offset 64 and its word XOR key decodes to `"DanS"`. -/
theorem c5_witness : word32 edgeBuf 64 ^^^ word32 edgeBuf 84 = DANS :=
  (c5_backward_scan_semantics.1 edgeBuf none 16 80 (by decide)).1

/-! ### C6 -/

theorem matchRich_congr (d₁ d₂ : List Nat) (i : Nat)
    (hbytes : ∀ j, 64 ≤ j → d₁[j]? = d₂[j]?) (hi : 64 ≤ i) :
    matchRich d₁ i = matchRich d₂ i := by
  unfold matchRich
  rw [hbytes i hi, hbytes (i + 1) (by omega), hbytes (i + 2) (by omega),
    hbytes (i + 3) (by omega)]

theorem findRichLoop_congr (d₁ d₂ : List Nat) (hlen : d₁.length = d₂.length)
    (hbytes : ∀ j, 64 ≤ j → d₁[j]? = d₂[j]?) :
    ∀ fuel i, 64 ≤ i → findRichLoop d₁ fuel i = findRichLoop d₂ fuel i := by
  intro fuel
  induction fuel with
  | zero => intro i _; rfl
  | succ f ih =>
    intro i hi
    unfold findRichLoop
    rw [hlen, matchRich_congr d₁ d₂ i hbytes hi]
    split
    · split
      · rfl
      · exact ih (i + 4) (by omega)
    · rfl

/-- C6 counterexample: `noDansBuf` and `lowBytesB` have the same length and
identical bytes from offset 64 on, differing only inside the first 64 bytes,
yet `rich_header_from_data` returns `-2` on the first and the success value
64 on the second — the backward length scan does inspect bytes below
offset 64. -/
theorem c6_counterexample :
    noDansBuf.length = lowBytesB.length ∧
    (∀ j, 64 ≤ j → noDansBuf[j]? = lowBytesB[j]?) ∧
    rich_header_from_data noDansBuf none ≠ rich_header_from_data lowBytesB none := by
  refine ⟨by decide, ?_, by decide⟩
  intro j hj
  rcases Nat.lt_or_ge j 72 with h | h
  · interval_cases j <;> rfl
  · have e1 : noDansBuf.length = 72 := by decide
    have e2 : lowBytesB.length = 72 := by decide
    rw [List.getElem?_eq_none (by omega), List.getElem?_eq_none (by omega)]

/-- C6 amended: the forward `"Rich"` scan — the only step of
`rich_header_from_data` performed before a marker is found — never inspects
bytes below offset 64: two equal-length buffers agreeing from offset 64 on
give identical forward-scan results (same marker offset or same NotFound).
The subsequent backward scan, however, may read below offset 64, so the final
result of the locator may differ (see the counterexample). -/
theorem c6_forward_scan_ignores_low_bytes (d₁ d₂ : List Nat)
    (hlen : d₁.length = d₂.length)
    (hbytes : ∀ j, 64 ≤ j → d₁[j]? = d₂[j]?) :
    findRichLoop d₁ d₁.length 64 = findRichLoop d₂ d₂.length 64 := by
  rw [hlen]
  exact findRichLoop_congr d₁ d₂ hlen hbytes d₂.length 64 (by omega)

/-- The byte agreement of the C6 pair from offset 64 on, used by the C6
counterexample and witness. -/
theorem noDans_lowBytesB_agree : ∀ j, 64 ≤ j → noDansBuf[j]? = lowBytesB[j]? := by
  intro j hj
  rcases Nat.lt_or_ge j 72 with h | h
  · interval_cases j <;> rfl
  · have e1 : noDansBuf.length = 72 := by decide
    have e2 : lowBytesB.length = 72 := by decide
    rw [List.getElem?_eq_none (by omega), List.getElem?_eq_none (by omega)]

/-- Witness for C6 on the concrete pair `noDansBuf`, `lowBytesB`. -/
theorem c6_witness :
    findRichLoop noDansBuf noDansBuf.length 64 =
      findRichLoop lowBytesB lowBytesB.length 64 :=
  c6_forward_scan_ignores_low_bytes noDansBuf lowBytesB (by decide)
    noDans_lowBytesB_agree

/-! ### C8 -/

/-- C8 counterexample: `unalignedBuf` contains its only `"Rich"` marker at the
unaligned offset 66 (`66 ≥ 64`, window in bounds), but the scan — which
advances one whole `uint32_t` per step — never inspects offset 66 and returns
`-1` (NotFound), contradicting the claim that byte-granular positions are
found. -/
theorem c8_counterexample :
    matchRich unalignedBuf 66 = true ∧ 64 ≤ 66 ∧
      66 + 4 < unalignedBuf.length ∧
      rich_header_from_data unalignedBuf none = some (-1, none) := by
  refine ⟨by decide, by decide, by decide, by decide⟩

/-- C8 amended: the forward scan is word-granular, inspecting only offsets
`64 + 4k`.  For every buffer whose first such aligned match is at `m` (with
the marker and its key in bounds), `rich_header_from_data` locates the marker
at `m`, leaving `m` in the out-parameter whatever the backward scan then
yields. -/
theorem c8_word_granular_scan (data : List Nat) (r₀ : Option Nat) (m k : Nat)
    (hm : m = 64 + 4 * k) (hmatch : matchRich data m = true)
    (hwin : m + 8 ≤ data.length)
    (hno : ∀ k' < k, matchRich data (64 + 4 * k') = false) :
    (rich_header_from_data data r₀).map Prod.snd = some (some m) := by
  have hwin' : m + 4 < data.length := by omega
  have hscan : findRichLoop data data.length 64 = some m :=
    findRichLoop_reaches data k data.length 64 m (by omega) hm hmatch hwin' hno
  have hread : read32 data (m + 4) = some (word32 data (m + 4)) :=
    read32_eq_word32 data (m + 4) (by omega)
  cases hd : findDansLoop data (word32 data (m + 4)) (m / 4 + 1) m with
  | some j => simp only [rich_header_from_data, hscan, hread, hd]; rfl
  | none => simp only [rich_header_from_data, hscan, hread, hd]; rfl

/-- Witness for C8 on `edgeBuf`: the first aligned match is at `m = 80`. -/
theorem c8_witness :
    (rich_header_from_data edgeBuf none).map Prod.snd = some (some 80) :=
  c8_word_granular_scan edgeBuf none 80 4 rfl (by decide) (by decide)
    (by decide)

/-! ### C7 -/

theorem getD_range_map (f : Nat → Nat) (n j : Nat) (hj : j < n) :
    ((List.range n).map f).getD j 0 = f j := by
  simp [List.getD_eq_getElem?_getD, List.getElem?_map, List.getElem?_range hj]

/-- C7 counterexample: the 16-byte all-zero buffer with the span
`start = 0, length = 16` satisfies the claim's hypothesis — `start + length`
is within bounds and the length is a positive multiple of 4 — yet
`rich_header_unmask` cannot produce the promised 4 words: the C code reads
the key from the 8 bytes following the span, offsets 16..24, which lie
outside the buffer (modelled by `none`). -/
theorem c7_counterexample :
    rich_header_unmask (List.replicate 16 0) (0 + 16) 16 = none ∧
      16 % 4 = 0 ∧ 0 < 16 ∧
      0 + 16 ≤ (List.replicate 16 0 : List Nat).length := by
  refine ⟨by decide, by decide, by decide, by decide⟩

/-- C7 amended: for every buffer and span whose full extent including the
8-byte `"Rich"`+key tail is in bounds (`start + size + 8 ≤ length`, the
HeaderSpan invariant of the spec) and whose size is a positive multiple of 4,
`rich_header_unmask` outputs exactly `size / 4` words, the `i`-th being the
input word at `start + 4i` XOR the key stored at `start + size + 4`; the
first 4 words are the padding block by position, and the product array read
from the output words is exactly the `(size - 16) / 8` entries decoded from
the input words in on-disk order, word 0 of each entry packing `BuildNumber`
low and `ProductID` high and word 1 being `ObjectCount` — no entry dropped or
reordered. -/
theorem c7_unmask_postcondition (data : List Nat) (start size : Nat)
    (hmul : size % 4 = 0) (hpos : 0 < size)
    (hbound : start + size + 8 ≤ data.length) (hsz : size < 2 ^ 64) :
    rich_header_unmask data (start + size) size =
      some ((List.range (size / 4)).map fun i =>
        word32 data (start + 4 * i) ^^^ word32 data (start + size + 4)) ∧
    ((List.range (size / 4)).map fun i =>
        word32 data (start + 4 * i) ^^^ word32 data (start + size + 4)).length
      = size / 4 ∧
    (16 ≤ size →
      rich_header_products_len size = (size - 16) / 8 ∧
      productsOfWords
          ((List.range (size / 4)).map fun i =>
            word32 data (start + 4 * i) ^^^ word32 data (start + size + 4))
          (rich_header_products_len size) =
        (List.range ((size - 16) / 8)).map fun i =>
          { BuildNumber := (word32 data (start + 16 + 8 * i) ^^^
              word32 data (start + size + 4)) % 65536
            ProductID := (word32 data (start + 16 + 8 * i) ^^^
              word32 data (start + size + 4)) / 65536 % 65536
            ObjectCount := word32 data (start + 16 + 8 * i + 4) ^^^
              word32 data (start + size + 4) }) := by
  refine ⟨?_, by simp, fun h16 => ?_⟩
  · unfold rich_header_unmask
    rw [if_neg (by omega), if_pos ⟨by omega, by omega⟩]
    have e : start + size - size = start := by omega
    simp only [e]
  · have hlen : rich_header_products_len size = (size - 16) / 8 := by
      unfold rich_header_products_len
      omega
    refine ⟨hlen, ?_⟩
    rw [hlen]
    unfold productsOfWords
    apply List.map_congr_left
    intro i hi
    have hi' : i < (size - 16) / 8 := by simpa using hi
    have h1 : 4 + 2 * i < size / 4 := by omega
    have h2 : 4 + 2 * i + 1 < size / 4 := by omega
    rw [getD_range_map _ _ _ h1, getD_range_map _ _ _ h2]
    have e1 : start + 4 * (4 + 2 * i) = start + 16 + 8 * i := by omega
    have e2 : start + 4 * (4 + 2 * i + 1) = start + 16 + 8 * i + 4 := by omega
    rw [e1, e2]

/-- Concrete buffer for the C7 witness: a zero-product masked header with key
5 and its tail, spanning the whole buffer. -/
def c7data : List Nat := wordsBytes [DANS ^^^ 5, 5, 5, 5, RICHW, 5]

/-- Witness for C7 at `c7data`, `start = 0`, `size = 16`. -/
theorem c7_witness :
    rich_header_unmask c7data (0 + 16) 16 =
      some ((List.range (16 / 4)).map fun i =>
        word32 c7data (0 + 4 * i) ^^^ word32 c7data (0 + 16 + 4)) ∧
    rich_header_products_len 16 = (16 - 16) / 8 :=
  ⟨(c7_unmask_postcondition c7data 0 16 (by decide) (by decide) (by decide)
      (by decide)).1,
   ((c7_unmask_postcondition c7data 0 16 (by decide) (by decide) (by decide)
      (by decide)).2.2 (by decide)).1⟩

/-! ### C9: the classifier -/

/-- The `switch` table of `rich_header_productid_to_cstr` in the C source:
product ID to toolchain name, in source order. -/
def product_table : List (Nat × String) := [
  (0x0000, ("Unknown")),
  (0x0001, ("Import0")),
  (0x0002, ("Linker510")),
  (0x0003, ("Cvtomf510")),
  (0x0004, ("Linker600")),
  (0x0005, ("Cvtomf600")),
  (0x0006, ("Cvtres500")),
  (0x0007, ("Utc11_Basic")),
  (0x0008, ("Utc11_C")),
  (0x0009, ("Utc12_Basic")),
  (0x000a, ("Utc12_C")),
  (0x000b, ("Utc12_CPP")),
  (0x000c, ("AliasObj60")),
  (0x000d, ("VisualBasic60")),
  (0x000e, ("Masm613")),
  (0x000f, ("Masm710")),
  (0x0010, ("Linker511")),
  (0x0011, ("Cvtomf511")),
  (0x0012, ("Masm614")),
  (0x0013, ("Linker512")),
  (0x0014, ("Cvtomf512")),
  (0x0015, ("Utc12_C_Std")),
  (0x0016, ("Utc12_CPP_Std")),
  (0x0017, ("Utc12_C_Book")),
  (0x0018, ("Utc12_CPP_Book")),
  (0x0019, ("Implib700")),
  (0x001a, ("Cvtomf700")),
  (0x001b, ("Utc13_Basic")),
  (0x001c, ("Utc13_C")),
  (0x001d, ("Utc13_CPP")),
  (0x001e, ("Linker610")),
  (0x001f, ("Cvtomf610")),
  (0x0020, ("Linker601")),
  (0x0021, ("Cvtomf601")),
  (0x0022, ("Utc12_1_Basic")),
  (0x0023, ("Utc12_1_C")),
  (0x0024, ("Utc12_1_CPP")),
  (0x0025, ("Linker620")),
  (0x0026, ("Cvtomf620")),
  (0x0027, ("AliasObj70")),
  (0x0028, ("Linker621")),
  (0x0029, ("Cvtomf621")),
  (0x002a, ("Masm615")),
  (0x002b, ("Utc13_LTCG_C")),
  (0x002c, ("Utc13_LTCG_CPP")),
  (0x002d, ("Masm620")),
  (0x002e, ("ILAsm100")),
  (0x002f, ("Utc12_2_Basic")),
  (0x0030, ("Utc12_2_C")),
  (0x0031, ("Utc12_2_CPP")),
  (0x0032, ("Utc12_2_C_Std")),
  (0x0033, ("Utc12_2_CPP_Std")),
  (0x0034, ("Utc12_2_C_Book")),
  (0x0035, ("Utc12_2_CPP_Book")),
  (0x0036, ("Implib622")),
  (0x0037, ("Cvtomf622")),
  (0x0038, ("Cvtres501")),
  (0x0039, ("Utc13_C_Std")),
  (0x003a, ("Utc13_CPP_Std")),
  (0x003b, ("Cvtpgd1300")),
  (0x003c, ("Linker622")),
  (0x003d, ("Linker700")),
  (0x003e, ("Export622")),
  (0x003f, ("Export700")),
  (0x0040, ("Masm700")),
  (0x0041, ("Utc13_POGO_I_C")),
  (0x0042, ("Utc13_POGO_I_CPP")),
  (0x0043, ("Utc13_POGO_O_C")),
  (0x0044, ("Utc13_POGO_O_CPP")),
  (0x0045, ("Cvtres700")),
  (0x0046, ("Cvtres710p")),
  (0x0047, ("Linker710p")),
  (0x0048, ("Cvtomf710p")),
  (0x0049, ("Export710p")),
  (0x004a, ("Implib710p")),
  (0x004b, ("Masm710p")),
  (0x004c, ("Utc1310p_C")),
  (0x004d, ("Utc1310p_CPP")),
  (0x004e, ("Utc1310p_C_Std")),
  (0x004f, ("Utc1310p_CPP_Std")),
  (0x0050, ("Utc1310p_LTCG_C")),
  (0x0051, ("Utc1310p_LTCG_CPP")),
  (0x0052, ("Utc1310p_POGO_I_C")),
  (0x0053, ("Utc1310p_POGO_I_CPP")),
  (0x0054, ("Utc1310p_POGO_O_C")),
  (0x0055, ("Utc1310p_POGO_O_CPP")),
  (0x0056, ("Linker624")),
  (0x0057, ("Cvtomf624")),
  (0x0058, ("Export624")),
  (0x0059, ("Implib624")),
  (0x005a, ("Linker710")),
  (0x005b, ("Cvtomf710")),
  (0x005c, ("Export710")),
  (0x005d, ("Implib710")),
  (0x005e, ("Cvtres710")),
  (0x005f, ("Utc1310_C")),
  (0x0060, ("Utc1310_CPP")),
  (0x0061, ("Utc1310_C_Std")),
  (0x0062, ("Utc1310_CPP_Std")),
  (0x0063, ("Utc1310_LTCG_C")),
  (0x0064, ("Utc1310_LTCG_CPP")),
  (0x0065, ("Utc1310_POGO_I_C")),
  (0x0066, ("Utc1310_POGO_I_CPP")),
  (0x0067, ("Utc1310_POGO_O_C")),
  (0x0068, ("Utc1310_POGO_O_CPP")),
  (0x0069, ("AliasObj710")),
  (0x006a, ("AliasObj710p")),
  (0x006b, ("Cvtpgd1310")),
  (0x006c, ("Cvtpgd1310p")),
  (0x006d, ("Utc1400_C")),
  (0x006e, ("Utc1400_CPP")),
  (0x006f, ("Utc1400_C_Std")),
  (0x0070, ("Utc1400_CPP_Std")),
  (0x0071, ("Utc1400_LTCG_C")),
  (0x0072, ("Utc1400_LTCG_CPP")),
  (0x0073, ("Utc1400_POGO_I_C")),
  (0x0074, ("Utc1400_POGO_I_CPP")),
  (0x0075, ("Utc1400_POGO_O_C")),
  (0x0076, ("Utc1400_POGO_O_CPP")),
  (0x0077, ("Cvtpgd1400")),
  (0x0078, ("Linker800")),
  (0x0079, ("Cvtomf800")),
  (0x007a, ("Export800")),
  (0x007b, ("Implib800")),
  (0x007c, ("Cvtres800")),
  (0x007d, ("Masm800")),
  (0x007e, ("AliasObj800")),
  (0x007f, ("PhoenixPrerelease")),
  (0x0080, ("Utc1400_CVTCIL_C")),
  (0x0081, ("Utc1400_CVTCIL_CPP")),
  (0x0082, ("Utc1400_LTCG_MSIL")),
  (0x0083, ("Utc1500_C")),
  (0x0084, ("Utc1500_CPP")),
  (0x0085, ("Utc1500_C_Std")),
  (0x0086, ("Utc1500_CPP_Std")),
  (0x0087, ("Utc1500_CVTCIL_C")),
  (0x0088, ("Utc1500_CVTCIL_CPP")),
  (0x0089, ("Utc1500_LTCG_C")),
  (0x008a, ("Utc1500_LTCG_CPP")),
  (0x008b, ("Utc1500_LTCG_MSIL")),
  (0x008c, ("Utc1500_POGO_I_C")),
  (0x008d, ("Utc1500_POGO_I_CPP")),
  (0x008e, ("Utc1500_POGO_O_C")),
  (0x008f, ("Utc1500_POGO_O_CPP")),
  (0x0090, ("Cvtpgd1500")),
  (0x0091, ("Linker900")),
  (0x0092, ("Export900")),
  (0x0093, ("Implib900")),
  (0x0094, ("Cvtres900")),
  (0x0095, ("Masm900")),
  (0x0096, ("AliasObj900")),
  (0x0097, ("Resource")),
  (0x0098, ("AliasObj1000")),
  (0x0099, ("Cvtpgd1600")),
  (0x009a, ("Cvtres1000")),
  (0x009b, ("Export1000")),
  (0x009c, ("Implib1000")),
  (0x009d, ("Linker1000")),
  (0x009e, ("Masm1000")),
  (0x009f, ("Phx1600_C")),
  (0x00a0, ("Phx1600_CPP")),
  (0x00a1, ("Phx1600_CVTCIL_C")),
  (0x00a2, ("Phx1600_CVTCIL_CPP")),
  (0x00a3, ("Phx1600_LTCG_C")),
  (0x00a4, ("Phx1600_LTCG_CPP")),
  (0x00a5, ("Phx1600_LTCG_MSIL")),
  (0x00a6, ("Phx1600_POGO_I_C")),
  (0x00a7, ("Phx1600_POGO_I_CPP")),
  (0x00a8, ("Phx1600_POGO_O_C")),
  (0x00a9, ("Phx1600_POGO_O_CPP")),
  (0x00aa, ("Utc1600_C")),
  (0x00ab, ("Utc1600_CPP")),
  (0x00ac, ("Utc1600_CVTCIL_C")),
  (0x00ad, ("Utc1600_CVTCIL_CPP")),
  (0x00ae, ("Utc1600_LTCG_C")),
  (0x00af, ("Utc1600_LTCG_CPP")),
  (0x00b0, ("Utc1600_LTCG_MSIL")),
  (0x00b1, ("Utc1600_POGO_I_C")),
  (0x00b2, ("Utc1600_POGO_I_CPP")),
  (0x00b3, ("Utc1600_POGO_O_C")),
  (0x00b4, ("Utc1600_POGO_O_CPP")),
  (0x00b5, ("AliasObj1010")),
  (0x00b6, ("Cvtpgd1610")),
  (0x00b7, ("Cvtres1010")),
  (0x00b8, ("Export1010")),
  (0x00b9, ("Implib1010")),
  (0x00ba, ("Linker1010")),
  (0x00bb, ("Masm1010")),
  (0x00bc, ("Utc1610_C")),
  (0x00bd, ("Utc1610_CPP")),
  (0x00be, ("Utc1610_CVTCIL_C")),
  (0x00bf, ("Utc1610_CVTCIL_CPP")),
  (0x00c0, ("Utc1610_LTCG_C")),
  (0x00c1, ("Utc1610_LTCG_CPP")),
  (0x00c2, ("Utc1610_LTCG_MSIL")),
  (0x00c3, ("Utc1610_POGO_I_C")),
  (0x00c4, ("Utc1610_POGO_I_CPP")),
  (0x00c5, ("Utc1610_POGO_O_C")),
  (0x00c6, ("Utc1610_POGO_O_CPP")),
  (0x00c7, ("AliasObj1100")),
  (0x00c8, ("Cvtpgd1700")),
  (0x00c9, ("Cvtres1100")),
  (0x00ca, ("Export1100")),
  (0x00cb, ("Implib1100")),
  (0x00cc, ("Linker1100")),
  (0x00cd, ("Masm1100")),
  (0x00ce, ("Utc1700_C")),
  (0x00cf, ("Utc1700_CPP")),
  (0x00d0, ("Utc1700_CVTCIL_C")),
  (0x00d1, ("Utc1700_CVTCIL_CPP")),
  (0x00d2, ("Utc1700_LTCG_C")),
  (0x00d3, ("Utc1700_LTCG_CPP")),
  (0x00d4, ("Utc1700_LTCG_MSIL")),
  (0x00d5, ("Utc1700_POGO_I_C")),
  (0x00d6, ("Utc1700_POGO_I_CPP")),
  (0x00d7, ("Utc1700_POGO_O_C")),
  (0x00d8, ("Utc1700_POGO_O_CPP")),
  (0x00d9, ("AliasObj1200")),
  (0x00da, ("Cvtpgd1800")),
  (0x00db, ("Cvtres1200")),
  (0x00dc, ("Export1200")),
  (0x00dd, ("Implib1200")),
  (0x00de, ("Linker1200")),
  (0x00df, ("Masm1200")),
  (0x00e0, ("Utc1800_C")),
  (0x00e1, ("Utc1800_CPP")),
  (0x00e2, ("Utc1800_CVTCIL_C")),
  (0x00e3, ("Utc1800_CVTCIL_CPP")),
  (0x00e4, ("Utc1800_LTCG_C")),
  (0x00e5, ("Utc1800_LTCG_CPP")),
  (0x00e6, ("Utc1800_LTCG_MSIL")),
  (0x00e7, ("Utc1800_POGO_I_C")),
  (0x00e8, ("Utc1800_POGO_I_CPP")),
  (0x00e9, ("Utc1800_POGO_O_C")),
  (0x00ea, ("Utc1800_POGO_O_CPP")),
  (0x00eb, ("AliasObj1210")),
  (0x00ec, ("Cvtpgd1810")),
  (0x00ed, ("Cvtres1210")),
  (0x00ee, ("Export1210")),
  (0x00ef, ("Implib1210")),
  (0x00f0, ("Linker1210")),
  (0x00f1, ("Masm1210")),
  (0x00f2, ("Utc1810_C")),
  (0x00f3, ("Utc1810_CPP")),
  (0x00f4, ("Utc1810_CVTCIL_C")),
  (0x00f5, ("Utc1810_CVTCIL_CPP")),
  (0x00f6, ("Utc1810_LTCG_C")),
  (0x00f7, ("Utc1810_LTCG_CPP")),
  (0x00f8, ("Utc1810_LTCG_MSIL")),
  (0x00f9, ("Utc1810_POGO_I_C")),
  (0x00fa, ("Utc1810_POGO_I_CPP")),
  (0x00fb, ("Utc1810_POGO_O_C")),
  (0x00fc, ("Utc1810_POGO_O_CPP")),
  (0x00fd, ("AliasObj1400")),
  (0x00fe, ("Cvtpgd1900")),
  (0x00ff, ("Cvtres1400")),
  (0x0100, ("Export1400")),
  (0x0101, ("Implib1400")),
  (0x0102, ("Linker1400")),
  (0x0103, ("Masm1400")),
  (0x0104, ("Utc1900_C")),
  (0x0105, ("Utc1900_CPP")),
  (0x0106, ("Utc1900_CVTCIL_C")),
  (0x0107, ("Utc1900_CVTCIL_CPP")),
  (0x0108, ("Utc1900_LTCG_C")),
  (0x0109, ("Utc1900_LTCG_CPP")),
  (0x010a, ("Utc1900_LTCG_MSIL")),
  (0x010b, ("Utc1900_POGO_I_C")),
  (0x010c, ("Utc1900_POGO_I_CPP")),
  (0x010d, ("Utc1900_POGO_O_C")),
  (0x010e, ("Utc1900_POGO_O_CPP"))]

/-- Embedding of `rich_header_productid_to_cstr` of the C source: the `switch` returns the
string of the matching `case`, and the empty string for any other ID. -/
def rich_header_productid_to_cstr (product_id : Nat) : String :=
  ((product_table.find? fun e => e.1 == product_id).map Prod.snd).getD emptyStr

/-- Embedding of `rich_header_productid_to_vsver_cstr` of the C source: the first matching
range (or ID set) determines the Visual Studio release string, and the final
`return ""` yields the empty string. -/
def rich_header_productid_to_vsver_cstr (product_id : Nat) : String :=
  if 0x0106 <= product_id && product_id <= 0x010a then ("Visual Studio 2017 14.01+")
  else if 0x00fd <= product_id && product_id <= 0x0106 then ("Visual Studio 2015 14.00")
  else if 0x00eb <= product_id && product_id <= 0x00fd then ("Visual Studio 2013 12.10")
  else if 0x00d9 <= product_id && product_id <= 0x00eb then ("Visual Studio 2013 12.00")
  else if 0x00c7 <= product_id && product_id <= 0x00d9 then ("Visual Studio 2012 11.00")
  else if 0x00b5 <= product_id && product_id <= 0x00c7 then ("Visual Studio 2010 10.10")
  else if 0x0098 <= product_id && product_id <= 0x00b5 then ("Visual Studio 2010 10.00")
  else if 0x0083 <= product_id && product_id <= 0x0098 then ("Visual Studio 2008 09.00")
  else if 0x006d <= product_id && product_id <= 0x0083 then ("Visual Studio 2005 08.00")
  else if 0x005a <= product_id && product_id <= 0x006d then ("Visual Studio 2003 07.10")
  else if 0x0019 <= product_id && product_id <= 0x0045 then ("Visual Studio 2002 07.00")
  else if (0xA <= product_id && product_id <= 0xD) ||
          (0x15 <= product_id && product_id <= 0x16) then ("Visual Studio 6.0 06.00")
  else if product_id == 0x2 || product_id == 0x6 ||
          product_id == 0xC || product_id == 0xE then ("Visual Studio 97 05.00")
  else if product_id == 1 then ("Visual Studio")
  else emptyStr

set_option maxRecDepth 4096 in
/-- C9: for every product ID not exceeding `0xFFFF`, both classifier
functions are total and structurally valid: `rich_header_productid_to_cstr`
either returns the name recorded for that ID in the switch table or else the
empty-string sentinel (in particular for every ID above the last table entry
`0x010e`), and `rich_header_productid_to_vsver_cstr` returns the empty-string
sentinel for every ID beyond its highest range bound `0x010a`.  Neither
function has any failure outcome. -/
theorem c9_classifier_totality (pid : Nat) (hpid : pid ≤ 0xFFFF) :
    ((∃ s, (pid, s) ∈ product_table ∧ rich_header_productid_to_cstr pid = s) ∨
        rich_header_productid_to_cstr pid = emptyStr) ∧
    (0x010e < pid → rich_header_productid_to_cstr pid = emptyStr) ∧
    (0x010a < pid → rich_header_productid_to_vsver_cstr pid = emptyStr) := by
  refine ⟨?_, ?_, ?_⟩
  · cases hf : product_table.find? fun e => e.1 == pid with
    | none =>
      right
      unfold rich_header_productid_to_cstr
      rw [hf]
      rfl
    | some e =>
      left
      refine ⟨e.2, ?_, ?_⟩
      · have hmem := List.mem_of_find?_eq_some hf
        have hp := List.find?_some hf
        have he : e.1 = pid := by simpa using hp
        rw [← he]
        simpa using hmem
      · unfold rich_header_productid_to_cstr
        rw [hf]
        rfl
  · intro hgt
    have hkeys : ∀ e ∈ product_table, e.1 ≤ 0x010e := by decide
    have hnone : (product_table.find? fun e => e.1 == pid) = none := by
      refine List.find?_eq_none.mpr ?_
      intro e he
      have := hkeys e he
      simp only [beq_iff_eq]
      omega
    unfold rich_header_productid_to_cstr
    rw [hnone]
    rfl
  · intro hgt
    unfold rich_header_productid_to_vsver_cstr
    rw [if_neg (by simp only [Bool.and_eq_true, decide_eq_true_eq]; omega)]
    rw [if_neg (by simp only [Bool.and_eq_true, decide_eq_true_eq]; omega)]
    rw [if_neg (by simp only [Bool.and_eq_true, decide_eq_true_eq]; omega)]
    rw [if_neg (by simp only [Bool.and_eq_true, decide_eq_true_eq]; omega)]
    rw [if_neg (by simp only [Bool.and_eq_true, decide_eq_true_eq]; omega)]
    rw [if_neg (by simp only [Bool.and_eq_true, decide_eq_true_eq]; omega)]
    rw [if_neg (by simp only [Bool.and_eq_true, decide_eq_true_eq]; omega)]
    rw [if_neg (by simp only [Bool.and_eq_true, decide_eq_true_eq]; omega)]
    rw [if_neg (by simp only [Bool.and_eq_true, decide_eq_true_eq]; omega)]
    rw [if_neg (by simp only [Bool.and_eq_true, decide_eq_true_eq]; omega)]
    rw [if_neg (by simp only [Bool.and_eq_true, decide_eq_true_eq]; omega)]
    rw [if_neg (by simp only [Bool.or_eq_true, Bool.and_eq_true,
      decide_eq_true_eq]; omega)]
    rw [if_neg (by simp only [Bool.or_eq_true, beq_iff_eq]; omega)]
    rw [if_neg (by simp only [beq_iff_eq]; omega)]

/-! ### C2: helper lemmas about `productWords` and word lists -/

theorem productWords_cons (p : IMAGE_MASKED_RICH_HEADER_PRODUCT)
    (tl : List IMAGE_MASKED_RICH_HEADER_PRODUCT) :
    productWords (p :: tl) =
      (p.BuildNumber + 65536 * p.ProductID) :: p.ObjectCount :: productWords tl := by
  simp [productWords]

theorem length_productWords (ps : List IMAGE_MASKED_RICH_HEADER_PRODUCT) :
    (productWords ps).length = 2 * ps.length := by
  induction ps with
  | nil => rfl
  | cons p tl ih => rw [productWords_cons]; simp [ih]; omega

theorem productWords_bound (ps : List IMAGE_MASKED_RICH_HEADER_PRODUCT)
    (hps : ∀ p ∈ ps, p.BuildNumber < 65536 ∧ p.ProductID < 65536 ∧
      p.ObjectCount < 2 ^ 32 ∧ p.BuildNumber + 65536 * p.ProductID ≠ DANS ∧
      p.ObjectCount ≠ DANS) :
    ∀ w ∈ productWords ps, w < 2 ^ 32 ∧ w ≠ DANS := by
  induction ps with
  | nil => intro w hw; simp [productWords] at hw
  | cons p tl ih =>
    intro w hw
    rw [productWords_cons] at hw
    obtain ⟨hb, hp, ho, hw0, hw1⟩ := hps p (List.mem_cons_self p tl)
    rcases List.mem_cons.mp hw with rfl | hw
    · exact ⟨by omega, hw0⟩
    · rcases List.mem_cons.mp hw with rfl | hw
      · exact ⟨ho, hw1⟩
      · exact ih (fun q hq => hps q (List.mem_cons_of_mem p hq)) w hw

theorem productWords_getD (ps : List IMAGE_MASKED_RICH_HEADER_PRODUCT) :
    ∀ i, i < ps.length →
      (productWords ps).getD (2 * i) 0 =
        (ps.getD i default).BuildNumber +
          65536 * (ps.getD i default).ProductID ∧
      (productWords ps).getD (2 * i + 1) 0 =
        (ps.getD i default).ObjectCount := by
  induction ps with
  | nil => intro i hi; simp at hi
  | cons p tl ih =>
    intro i hi
    cases i with
    | zero => rw [productWords_cons]; exact ⟨rfl, rfl⟩
    | succ i =>
      rw [productWords_cons]
      have e1 : 2 * (i + 1) = 2 * i + 1 + 1 := by omega
      rw [e1]
      simp only [List.getD_cons_succ]
      exact ih i (by simp only [List.length_cons] at hi; omega)

theorem getD_cons4_add (a b c d : Nat) (X : List Nat) (u : Nat) :
    (a :: b :: c :: d :: X).getD (4 + u) 0 = X.getD u 0 := by
  have e : 4 + u = u + 1 + 1 + 1 + 1 := by omega
  rw [e]
  simp only [List.getD_cons_succ]

theorem getD_append_lt (l₁ l₂ : List Nat) (u : Nat) (hu : u < l₁.length) :
    (l₁ ++ l₂).getD u 0 = l₁.getD u 0 := by
  simp only [List.getD_eq_getElem?_getD, List.getElem?_append_left hu]

theorem getD_map_xor (l : List Nat) (key u : Nat) (hu : u < l.length) :
    (l.map fun w => w ^^^ key).getD u 0 = l.getD u 0 ^^^ key := by
  simp [List.getD_eq_getElem?_getD, List.getElem?_map, List.getElem?_eq_getElem hu]

theorem getD_mem_nat (l : List Nat) (u : Nat) (hu : u < l.length) :
    l.getD u 0 ∈ l := by
  rw [List.getD_eq_getElem l 0 hu]
  exact List.getElem_mem hu

/-- The shared core of the round-trip property: on a buffer of the form
`pad ++ [DanS ^ key][body words][Rich][key]` — the padding word-aligned and at
least 64 bytes, all body words 32-bit values that do not decode to `"DanS"`
under the key, the key not the one degenerate value that makes the `"Rich"`
word itself decode to `"DanS"`, and no aligned `"Rich"` byte match before the
real marker — the locator finds the marker right after the body, returns the
full masked size and the key, and the unmasker XORs every masked word back. -/
theorem assembled_core (pad : List Nat) (key : Nat) (body : List Nat)
    (r₀ : Option Nat)
    (hpadlen : 64 ≤ pad.length) (hpad4 : 4 ∣ pad.length)
    (hkey : key < 2 ^ 32) (hkeyne : key ≠ RICHW ^^^ DANS)
    (hbody : ∀ w ∈ body, w < 2 ^ 32 ∧ w ^^^ key ≠ DANS)
    (hno : ∀ k, 64 + 4 * k < pad.length + 4 + 4 * body.length →
      matchRich (pad ++ wordsBytes ((DANS ^^^ key) :: (body ++ [RICHW, key])))
        (64 + 4 * k) = false) :
    rich_header_from_data
        (pad ++ wordsBytes ((DANS ^^^ key) :: (body ++ [RICHW, key]))) r₀ =
      some (((4 + 4 * body.length : Nat) : Int),
        some (pad.length + 4 + 4 * body.length)) ∧
    word32 (pad ++ wordsBytes ((DANS ^^^ key) :: (body ++ [RICHW, key])))
        (pad.length + 4 + 4 * body.length + 4) = key ∧
    rich_header_unmask
        (pad ++ wordsBytes ((DANS ^^^ key) :: (body ++ [RICHW, key])))
        (pad.length + 4 + 4 * body.length) (4 + 4 * body.length) =
      some (DANS :: body.map fun w => w ^^^ key) := by
  have hDANSlt : DANS < 2 ^ 32 := by decide
  have hRICHlt : RICHW < 2 ^ 32 := by decide
  set W : List Nat := (DANS ^^^ key) :: (body ++ [RICHW, key]) with hWdef
  set B : List Nat := pad ++ wordsBytes W with hBdef
  have hWlen : W.length = 3 + body.length := by
    rw [hWdef]
    simp only [List.length_cons, List.length_append, List.length_nil]
    omega
  have hBlen : B.length = pad.length + 12 + 4 * body.length := by
    rw [hBdef]
    simp only [List.length_append, length_wordsBytes, hWlen]
    omega
  have hWlt : ∀ w ∈ W, w < 2 ^ 32 := by
    intro w hw
    rw [hWdef] at hw
    rcases List.mem_cons.mp hw with rfl | hw
    · exact Nat.xor_lt_two_pow hDANSlt hkey
    · rcases List.mem_append.mp hw with hw | hw
      · exact (hbody w hw).1
      · rcases List.mem_cons.mp hw with rfl | hw
        · exact hRICHlt
        · rcases List.mem_cons.mp hw with rfl | hw
          · exact hkey
          · simp at hw
  -- offsets
  have hROff : pad.length + 4 * (1 + body.length) = pad.length + 4 + 4 * body.length := by
    omega
  -- the word values at the interesting indices of W
  have hW_rich : W.getD (1 + body.length) 0 = RICHW := by
    rw [hWdef, show 1 + body.length = body.length + 1 from by omega,
      List.getD_cons_succ]
    have h := getD_append_add body [RICHW, key] 0 0
    rw [Nat.add_zero] at h
    rw [h]
    rfl
  have hW_key : W.getD (2 + body.length) 0 = key := by
    rw [hWdef, show 2 + body.length = body.length + 1 + 1 from by omega,
      List.getD_cons_succ]
    rw [getD_append_add body [RICHW, key] 1 0]
    rfl
  have hW_dans : W.getD 0 0 = DANS ^^^ key := by rw [hWdef]; rfl
  have hW_body : ∀ u, u < body.length → W.getD (1 + u) 0 = body.getD u 0 := by
    intro u hu
    rw [hWdef, show 1 + u = u + 1 from by omega, List.getD_cons_succ]
    exact getD_append_lt body [RICHW, key] u hu
  -- forward scan reaches the marker
  obtain ⟨q, hq⟩ := hpad4
  have hmatch : matchRich B (pad.length + 4 + 4 * body.length) = true := by
    rw [← hROff, hBdef]
    exact matchRich_wordsBytes pad W (1 + body.length) (by omega) hW_rich
  have hscan : findRichLoop B B.length 64 = some (pad.length + 4 + 4 * body.length) := by
    refine findRichLoop_reaches B (q - 16 + 1 + body.length) B.length 64 _
      (by omega) (by omega) hmatch (by omega) ?_
    intro k' hk'
    rw [hBdef]
    exact hno k' (by omega)
  -- the key read
  have hread : read32 B (pad.length + 4 + 4 * body.length + 4) = some key := by
    have h := read32_wordsBytes pad W (2 + body.length) (by omega) hWlt
    rw [hW_key] at h
    rw [hBdef]
    rw [show pad.length + 4 + 4 * body.length + 4 = pad.length + 4 * (2 + body.length)
      from by omega]
    exact h
  have hword_key : word32 B (pad.length + 4 + 4 * body.length + 4) = key := by
    unfold word32; rw [hread]; rfl
  -- the word at any scanned position
  have hword : ∀ t, t < W.length → word32 B (pad.length + 4 * t) = W.getD t 0 := by
    intro t ht
    rw [hBdef]
    exact word32_wordsBytes pad W t ht hWlt
  -- backward scan reaches the DanS word
  have hdans : findDansLoop B key ((pad.length + 4 + 4 * body.length) / 4 + 1)
      (pad.length + 4 + 4 * body.length) = some pad.length := by
    refine findDansLoop_reaches B key _ _ _ (by omega) (by omega) (by omega)
      (by omega) ?_ ?_
    · have h0 := hword 0 (by omega)
      rw [Nat.mul_zero, Nat.add_zero] at h0
      rw [h0, hW_dans, xor_cancel_xor]
    · intro j' h1 h2 h3
      obtain ⟨u, hu⟩ := h3
      have hc : ∃ c, j' = pad.length + 4 * c ∧ 1 ≤ c ∧ c ≤ 1 + body.length := by
        refine ⟨u - q, by omega, by omega, by omega⟩
      obtain ⟨c, rfl, hc1, hc2⟩ := hc
      rw [hword c (by omega)]
      rcases Nat.lt_or_ge c (1 + body.length) with hclt | hcge
      · -- a body word
        have hcu : c = 1 + (c - 1) := by omega
        rw [hcu, hW_body (c - 1) (by omega)]
        exact (hbody _ (getD_mem_nat body (c - 1) (by omega))).2
      · -- the Rich word itself
        have hce : c = 1 + body.length := by omega
        rw [hce, hW_rich]
        intro hcontra
        apply hkeyne
        have := congrArg (fun z => RICHW ^^^ z) hcontra
        simpa [← Nat.xor_assoc, Nat.xor_self, Nat.zero_xor] using this
  -- assemble the locator result
  refine ⟨?_, hword_key, ?_⟩
  · have : rich_header_from_data B r₀ =
        some (((pad.length + 4 + 4 * body.length - pad.length : Nat) : Int),
          some (pad.length + 4 + 4 * body.length)) := by
      simp only [rich_header_from_data, hscan, hread, hdans]
    rw [this]
    have e : pad.length + 4 + 4 * body.length - pad.length =
        4 + 4 * body.length := by omega
    rw [e]
  · -- the unmasker
    unfold rich_header_unmask
    rw [if_neg (by omega), if_pos ⟨by omega, by omega⟩]
    rw [show (4 + 4 * body.length) / 4 = 1 + body.length from by omega]
    have hsub : pad.length + 4 + 4 * body.length - (4 + 4 * body.length) =
        pad.length := by omega
    simp only [hsub, hword_key]
    refine congrArg some (List.ext_getElem? ?_)
    intro i
    rcases Nat.lt_or_ge i (1 + body.length) with hi | hi
    · rw [List.getElem?_map, List.getElem?_range hi]
      cases i with
      | zero =>
        have h0 := hword 0 (by omega)
        rw [Nat.mul_zero, Nat.add_zero] at h0
        simp only [Option.map_some', Nat.mul_zero, Nat.add_zero]
        rw [h0, hW_dans, xor_cancel_xor, List.getElem?_cons_zero]
      | succ u =>
        have hu : u < body.length := by omega
        have hb := hword (1 + u) (by omega)
        rw [hW_body u hu] at hb
        have hb2 : word32 B (pad.length + 4 * (u + 1)) = body.getD u 0 := by
          rw [show pad.length + 4 * (u + 1) = pad.length + 4 * (1 + u) from by
            omega]
          exact hb
        simp only [Option.map_some']
        rw [hb2, List.getElem?_cons_succ, List.getElem?_map,
          List.getElem?_eq_getElem hu]
        simp only [Option.map_some']
        rw [List.getD_eq_getElem body 0 hu]
    · have hlen1 : ((List.range (1 + body.length)).map fun i =>
          word32 B (pad.length + 4 * i) ^^^ key).length = 1 + body.length := by
        simp only [List.length_map, List.length_range]
      have hlen2 : (DANS :: body.map fun w => w ^^^ key).length =
          1 + body.length := by
        simp only [List.length_cons, List.length_map]
        omega
      rw [List.getElem?_eq_none (by rw [hlen1]; omega),
        List.getElem?_eq_none (by rw [hlen2]; omega)]

/-- Reading the product array out of the unmasked word sequence recovers the
original entries exactly. -/
theorem productsOfWords_recover (ps : List IMAGE_MASKED_RICH_HEADER_PRODUCT)
    (hps : ∀ p ∈ ps, p.BuildNumber < 65536 ∧ p.ProductID < 65536 ∧
      p.ObjectCount < 2 ^ 32 ∧ p.BuildNumber + 65536 * p.ProductID ≠ DANS ∧
      p.ObjectCount ≠ DANS) :
    productsOfWords (DANS :: 0 :: 0 :: 0 :: productWords ps) ps.length = ps := by
  unfold productsOfWords
  refine List.ext_getElem? ?_
  intro i
  rcases Nat.lt_or_ge i ps.length with hi | hi
  · rw [List.getElem?_map, List.getElem?_range hi, List.getElem?_eq_getElem hi]
    simp only [Option.map_some']
    have hg1 : (DANS :: 0 :: 0 :: 0 :: productWords ps).getD (4 + 2 * i) 0 =
        (productWords ps).getD (2 * i) 0 :=
      getD_cons4_add DANS 0 0 0 (productWords ps) (2 * i)
    have hg2 : (DANS :: 0 :: 0 :: 0 :: productWords ps).getD (4 + 2 * i + 1) 0 =
        (productWords ps).getD (2 * i + 1) 0 := by
      rw [show 4 + 2 * i + 1 = 4 + (2 * i + 1) from by omega]
      exact getD_cons4_add DANS 0 0 0 (productWords ps) (2 * i + 1)
    obtain ⟨hw0, hw1⟩ := productWords_getD ps i hi
    rw [List.getD_eq_getElem ps default hi] at hw0 hw1
    obtain ⟨hb, hpid, _, _, _⟩ := hps (ps[i]) (List.getElem_mem hi)
    have e1 : (ps[i].BuildNumber + 65536 * ps[i].ProductID) % 65536 =
        ps[i].BuildNumber := by omega
    have e2 : (ps[i].BuildNumber + 65536 * ps[i].ProductID) / 65536 % 65536 =
        ps[i].ProductID := by omega
    rw [hg1, hg2, hw0, hw1, e1, e2]
  · have hlen1 : ((List.range ps.length).map fun i =>
        ({ BuildNumber := ((DANS :: 0 :: 0 :: 0 :: productWords ps).getD (4 + 2 * i) 0) % 65536
           ProductID := ((DANS :: 0 :: 0 :: 0 :: productWords ps).getD (4 + 2 * i) 0) / 65536 % 65536
           ObjectCount := (DANS :: 0 :: 0 :: 0 :: productWords ps).getD (4 + 2 * i + 1) 0 } :
          IMAGE_MASKED_RICH_HEADER_PRODUCT)).length = ps.length := by
      simp only [List.length_map, List.length_range]
    rw [List.getElem?_eq_none (by rw [hlen1]; omega),
      List.getElem?_eq_none (by omega)]

/-- C2 amended (round trip with the side conditions the code requires): for a
buffer assembled as `[padding][DanS ^ key][3 zero words ^ key][N masked
product entries][Rich][key]` where the padding is at least 64 bytes long and
word-aligned, the key is a 32-bit value other than `"Rich" ^ "DanS"`
(`0x3b0d0816`), every product entry has 16-bit `BuildNumber`/`ProductID` and
32-bit `ObjectCount`, no product word equals the `"DanS"` word, and no
aligned 4-byte window before the true marker matches `"Rich"`, the locator
returns exactly the masked size `16 + 8N` with the marker offset, the key is
recovered, the unmasker restores the `DanS` word, the three zero words and
all masked product words, and reading the product array back yields exactly
the original `N` entries in their original order. -/
theorem c2_round_trip (pad : List Nat) (key : Nat)
    (ps : List IMAGE_MASKED_RICH_HEADER_PRODUCT) (r₀ : Option Nat)
    (hpadlen : 64 ≤ pad.length) (hpad4 : 4 ∣ pad.length)
    (hkey : key < 2 ^ 32) (hkeyne : key ≠ RICHW ^^^ DANS)
    (hN : 8 * ps.length < 2 ^ 64)
    (hps : ∀ p ∈ ps, p.BuildNumber < 65536 ∧ p.ProductID < 65536 ∧
      p.ObjectCount < 2 ^ 32 ∧ p.BuildNumber + 65536 * p.ProductID ≠ DANS ∧
      p.ObjectCount ≠ DANS)
    (hno : ∀ k, 64 + 4 * k < pad.length + 16 + 8 * ps.length →
      matchRich (assembleRich pad key ps) (64 + 4 * k) = false) :
    rich_header_from_data (assembleRich pad key ps) r₀ =
      some (((16 + 8 * ps.length : Nat) : Int),
        some (pad.length + 16 + 8 * ps.length)) ∧
    word32 (assembleRich pad key ps)
      (pad.length + 16 + 8 * ps.length + 4) = key ∧
    rich_header_unmask (assembleRich pad key ps)
        (pad.length + 16 + 8 * ps.length) (16 + 8 * ps.length) =
      some (DANS :: 0 :: 0 :: 0 :: productWords ps) ∧
    productsOfWords (DANS :: 0 :: 0 :: 0 :: productWords ps)
      (rich_header_products_len (16 + 8 * ps.length)) = ps := by
  set bw : List Nat := [0 ^^^ key, 0 ^^^ key, 0 ^^^ key] ++
    (productWords ps).map (fun w => w ^^^ key) with hbw
  have hbl : bw.length = 3 + 2 * ps.length := by
    rw [hbw]
    simp only [List.length_append, List.length_cons, List.length_nil,
      List.length_map, length_productWords]
  have hA : assembleRich pad key ps =
      pad ++ wordsBytes ((DANS ^^^ key) :: (bw ++ [RICHW, key])) := rfl
  have hbody : ∀ w ∈ bw, w < 2 ^ 32 ∧ w ^^^ key ≠ DANS := by
    intro w hw
    rw [hbw] at hw
    rcases List.mem_append.mp hw with hw | hw
    · have hwk : w = 0 ^^^ key := by
        rcases List.mem_cons.mp hw with rfl | hw
        · rfl
        · rcases List.mem_cons.mp hw with rfl | hw
          · rfl
          · rcases List.mem_cons.mp hw with rfl | hw
            · rfl
            · simp at hw
      subst hwk
      rw [Nat.zero_xor]
      constructor
      · exact hkey
      · rw [Nat.xor_self]
        decide
    · obtain ⟨v, hv, rfl⟩ := List.mem_map.mp hw
      obtain ⟨hvlt, hvne⟩ := productWords_bound ps hps v hv
      exact ⟨Nat.xor_lt_two_pow hvlt hkey, by rw [xor_cancel_xor]; exact hvne⟩
  have hno' : ∀ k, 64 + 4 * k < pad.length + 4 + 4 * bw.length →
      matchRich (pad ++ wordsBytes ((DANS ^^^ key) :: (bw ++ [RICHW, key])))
        (64 + 4 * k) = false := by
    intro k hk
    rw [← hA]
    exact hno k (by rw [hbl] at hk; omega)
  have hcore := assembled_core pad key bw r₀ hpadlen hpad4 hkey hkeyne hbody hno'
  rw [← hA] at hcore
  have e1 : (4 + 4 * bw.length : Nat) = 16 + 8 * ps.length := by
    rw [hbl]; omega
  have e2 : pad.length + 4 + 4 * bw.length = pad.length + 16 + 8 * ps.length := by
    rw [hbl]; omega
  rw [e1, e2] at hcore
  have hmap : bw.map (fun w => w ^^^ key) = 0 :: 0 :: 0 :: productWords ps := by
    rw [hbw, List.map_append, List.map_map]
    have h1 : ([0 ^^^ key, 0 ^^^ key, 0 ^^^ key] : List Nat).map
        (fun w => w ^^^ key) = [0, 0, 0] := by
      simp [xor_cancel_xor]
    have h2 : (productWords ps).map ((fun w => w ^^^ key) ∘ fun w => w ^^^ key) =
        productWords ps := by
      calc (productWords ps).map ((fun w => w ^^^ key) ∘ fun w => w ^^^ key)
          = (productWords ps).map id :=
            List.map_congr_left (fun a _ => xor_cancel_xor a key)
        _ = productWords ps := List.map_id _
    rw [h1, h2]
    rfl
  rw [hmap] at hcore
  have hplen : rich_header_products_len (16 + 8 * ps.length) = ps.length := by
    unfold rich_header_products_len
    omega
  refine ⟨hcore.1, hcore.2.1, hcore.2.2, ?_⟩
  rw [hplen]
  exact productsOfWords_recover ps hps

/-- C2 counterexample: a buffer assembled exactly per the claim's recipe —
64 padding bytes, masked `DanS`, three masked zero words, one product entry
whose first word happens to equal the `"DanS"` word (`BuildNumber 0x6144`,
`ProductID 0x536e`), the `"Rich"` marker and the key — makes the backward
scan stop at that product word: locate returns size 8 instead of 24, and
unmasking the returned span yields the two words `[DanS, 0]` instead of the
prologue plus the original entry.  The round trip does not recover the
original product entry, so the claim fails as stated (without side
conditions). -/
theorem c2_counterexample :
    rich_header_from_data (assembleRich (List.replicate 64 0) 0x12345678
        [⟨0x6144, 0x536e, 0⟩]) none = some (8, some 88) ∧
      (8 : Int) ≠ ((16 + 8 * 1 : Nat) : Int) ∧
      rich_header_unmask (assembleRich (List.replicate 64 0) 0x12345678
        [⟨0x6144, 0x536e, 0⟩]) 88 8 = some [DANS, 0] := by
  refine ⟨by decide, by decide, by decide⟩

/-- Witness for C2 at the spec's concrete scenario: key `0x12345678`, one
product entry `build_number 0x1234, product_id 0x00aa, object_count 7`. -/
theorem c2_witness :
    rich_header_from_data (assembleRich (List.replicate 64 0) 0x12345678
        [⟨0x1234, 0x00aa, 7⟩]) none = some (24, some 88) ∧
    word32 (assembleRich (List.replicate 64 0) 0x12345678
        [⟨0x1234, 0x00aa, 7⟩]) 92 = 0x12345678 ∧
    rich_header_unmask (assembleRich (List.replicate 64 0) 0x12345678
        [⟨0x1234, 0x00aa, 7⟩]) 88 24 =
      some (DANS :: 0 :: 0 :: 0 :: productWords [⟨0x1234, 0x00aa, 7⟩]) ∧
    productsOfWords (DANS :: 0 :: 0 :: 0 :: productWords [⟨0x1234, 0x00aa, 7⟩])
      (rich_header_products_len 24) = [⟨0x1234, 0x00aa, 7⟩] :=
  c2_round_trip (List.replicate 64 0) 0x12345678 [⟨0x1234, 0x00aa, 7⟩] none
    (by decide) (by decide) (by decide) (by decide) (by decide) (by decide)
    (fun k hk => by
      simp at hk
      have h6 : k < 6 := by omega
      interval_cases k <;> decide)

/-- Witness for C9 at the extreme ID `0xFFFF`: both classifiers return the
empty-string sentinel. -/
theorem c9_witness :
    rich_header_productid_to_cstr 0xFFFF = emptyStr ∧
      rich_header_productid_to_vsver_cstr 0xFFFF = emptyStr :=
  ⟨(c9_classifier_totality 0xFFFF (by decide)).2.1 (by decide),
   (c9_classifier_totality 0xFFFF (by decide)).2.2 (by decide)⟩

end RichHeader
